import Mathlib

/-!
Verification development for the narrative rule engine of "The Last Jump"
(browser life-sim, `js/game.js`, `js/pursuit-manager.js`, the condition
checker and the ability checker).

Shallow embedding conventions:
* JS objects used as string-keyed dictionaries are association lists
  (`Obj α`); key order models JS insertion order (all keys in the content
  and state are non-integer-like strings, for which `Object.entries`
  returns insertion order).
* JS numbers are `Rat`; week counters are `Int`.
* `Math.random()` is an injectable stream `r : Nat → Rat` together with a
  next-index counter, mirroring the game's overridable `Game.random`.
* Absent JS fields are `Option`; JS truthiness of the values that actually
  occur is modelled per field (`0` and `""` are falsy, objects and arrays
  are truthy).
* Fallible code (`Object.entries` on an absent collection) returns
  `Except`.
* Fragments that hand off to arbitrary content callbacks (named handlers,
  declarative effect lists run after an event fires or an objective
  completes) are modelled up to that hand-off point: the functions below
  compute every state update the engine itself performs before the
  hand-off, and the theorems use content whose completion hand-off lists
  are empty (for which the hand-off is the identity).
-/

namespace TLJ

/-- JS object used as a dictionary: association list in insertion order. -/
abbrev Obj (α : Type) := List (String × α)

/-- Property read `o[k]`, `undefined` as `none` (first binding wins; JS
objects cannot hold duplicate keys). -/
def Obj.get? {α : Type} : Obj α → String → Option α
  | [], _ => none
  | (k1, v1) :: rest, k => if k1 == k then some v1 else Obj.get? rest k

/-- Property write `o[k] = v`: overwrite in place if the key exists,
append otherwise (JS insertion-order semantics). -/
def Obj.set {α : Type} (o : Obj α) (k : String) (v : α) : Obj α :=
  match o with
  | [] => [(k, v)]
  | (k1, v1) :: rest => if k1 == k then (k, v) :: rest else (k1, v1) :: Obj.set rest k v

/-- JS truthiness of an optional string field (`""` is falsy). -/
def jsTruthyS : Option String → Bool
  | none => false
  | some s => !(s == "")

/-- JS truthiness of an optional numeric field (`0` is falsy). -/
def jsTruthyN : Option Rat → Bool
  | none => false
  | some q => !(q == 0)

/-- Numeric field value with the JS `?? 0` / `|| 0` default. -/
def jsNum (o : Option Rat) : Rat := o.getD 0

/-- A JS argument that is either a single string or an array of strings
(the `Array.isArray` pattern used by several condition clauses). -/
inductive StrOrList where
  | one (s : String)
  | many (l : List String)
deriving DecidableEq, Repr

/-- Normalisation `Array.isArray(x) ? x : [x]`. -/
def StrOrList.toList : StrOrList → List String
  | .one s => [s]
  | .many l => l

/-- Expected result in an `objectiveComplete` clause: `true` (any result)
or a result tag string. -/
inductive ResultExpect where
  | anyResult
  | tag (s : String)
deriving DecidableEq, Repr

/-- Leaf clauses of a condition record (`js/condition-checker.js`).
Every field is optional; an absent clause constrains nothing. -/
structure CondLeaf where
  inChapter : Option (Obj String) := none
  hasFlag : Option StrOrList := none
  notFlag : Option StrOrList := none
  stat : Option (String × String × Rat) := none
  charStat : Option (String × String × String × Rat) := none
  skill : Option (String × String × Rat) := none
  hasDeepSkill : Option StrOrList := none
  weekDivisibleBy : Option Int := none
  minWeek : Option Int := none
  maxWeek : Option Int := none
  hasObjectOfType : Option String := none
  playerHasObjectOfType : Option String := none
  objectiveProgress : Option (String × String × Rat) := none
  objectiveComplete : Option (Obj ResultExpect) := none
  objectiveActive : Option StrOrList := none
  pursuitActive : Option StrOrList := none
  pursuitOption : Option (String × String) := none
  pursuitHours : Option (String × Rat) := none
  flags : Option (List String) := none
deriving Repr

/-- A condition record: leaf clauses plus the `all` / `any` / `not`
combinators.  `all` absent and `all: []` coincide semantically (both
vacuously true), so `all` is carried as a plain list; `any: []` differs
from an absent `any` (present-but-empty fails), so `any` stays optional. -/
inductive Cond where
  | mk (leaf : CondLeaf) (allC : List Cond) (anyC : Option (List Cond)) (notC : Option Cond)

/-- The always-true condition record `{}`. -/
def Cond.trivial : Cond := .mk {} [] none none

/-- Storyline state record (`Game.state.storylines[id]`). `completed` is
absent (falsy) until the completion pass sets it. -/
structure Storyline where
  currentChapter : String
  enteredChapter : Bool := true
  progress : Option Rat := none
  completed : Bool := false
  result : Option String := none
deriving DecidableEq, Repr

/-- Weekly schedule entry for one probabilistic event
(`Game.state.eventSchedule[id]`): either a failed roll `{passed:false}` or
a passed roll with its trigger point. -/
inductive ScheduleEntry where
  | notPassed
  | scheduled (triggerAt : Rat) (triggered : Bool) (missed : Bool)
deriving DecidableEq, Repr

/-- Per-pursuit player state (`Game.state.pursuits[id]`); `enabled`,
`option` and `value` are the mode-specific payloads, absent for the other
modes (absent boolean reads as falsy `false`). -/
structure PursuitState where
  active : Bool
  startedWeek : Int := 0
  enabled : Bool := false
  option : Option String := none
  value : Option Rat := none
deriving DecidableEq, Repr

/-- Character record fields read by the modelled engine fragments. -/
structure Character where
  name : String := ""
  stats : Obj Rat := []
  skillsGeneral : Obj Rat := []
  skillsSpecific : Obj Rat := []
  deepSkills : List String := []
  flags : Obj Bool := []
  inventory : List String := []
deriving Repr

/-- Possession record fields read by the modelled engine fragments. -/
structure GameObject where
  templateType : String
  name : String := ""
  ownerId : Option String := none
deriving Repr

/-- Event content record (`data/events`): selection-relevant fields.  The
`handler` / `effects` / `text` payload is executed for the winning event
after the selection and supersede updates modelled here. -/
structure EventDef where
  priority : Option Rat := none
  probability : Option Rat := none
  conditions : Option Cond := none
  onSuperseded : Option String := none

/-- Chapter record of a story definition.  Completion hand-off payloads
(`successEffects` / `failureEffects` / `successHandler` /
`failureHandler`) run after the completion pass marks the storyline; the
theorems below use content without them (the hand-off is then the
identity). -/
structure Chapter where
  advanceWhen : Option Cond := none
  advanceTo : Option String := none
  failWhen : Option Cond := none
  failTo : Option String := none
  objectiveResult : Option String := none

/-- Story content record. -/
structure Story where
  initialChapter : Option String := none
  chapters : Obj Chapter := []

/-- One option of a `select` pursuit. -/
structure PursuitOption where
  hoursCost : Option Rat := none
deriving Repr

/-- Pursuit content record (`data/pursuits.js`): the fields the hours
calculator reads. -/
structure PursuitDef where
  configType : String
  hoursCost : Option Rat := none
  options : Obj PursuitOption := []
deriving Repr

/-- Skill registry entry (`SkillDefinitions`). -/
structure SkillDef where
  type : String
  parent : Option String := none
deriving Repr

/-- The global content tables (`Events`, `Stories`, `Pursuits`,
`SkillDefinitions`), passed explicitly instead of as JS globals. -/
structure Content where
  events : Obj EventDef := []
  stories : Obj Story := []
  pursuits : Obj PursuitDef := []
  skills : Obj SkillDef := []

namespace Config

/-- `Config.actionsPerPeriod` (`data/config.js`): actions per week. -/
def actionsPerPeriod : Rat := 3

end Config

/-- The mutable world state (`Game.state`), restricted to the fields the
modelled fragments read or write. -/
structure GameState where
  week : Int := 1
  actionsRemaining : Rat := 3
  weekStartActions : Rat := 3
  playerId : String := "char_1"
  characters : Obj Character := []
  objects : Obj GameObject := []
  storylines : Obj Storyline := []
  pursuits : Obj PursuitState := []
  completedEvents : List String := []
  eventSchedule : Obj ScheduleEntry := []
  flags : Obj Bool := []

namespace Game

/-- `Game.getCharacter`. -/
def getCharacter (g : GameState) (id : String) : Option Character :=
  g.characters.get? id

/-- `Game.hasFlag`: `!!this.state.flags[flag]`. -/
def hasFlag (g : GameState) (flag : String) : Bool :=
  (g.flags.get? flag).getD false

/-- `Game.getStat`: `char?.stats?.[statName] ?? 0`. -/
def getStat (g : GameState) (charId statName : String) : Rat :=
  match getCharacter g charId with
  | none => 0
  | some ch => (ch.stats.get? statName).getD 0

/-- `Game.getSkill`: general skills read directly; specific skills add the
specific value to the declared parent's general value; an unknown
character or skill id yields 0. -/
def getSkill (C : Content) (g : GameState) (charId skillName : String) : Rat :=
  match getCharacter g charId with
  | none => 0
  | some ch =>
    match C.skills.get? skillName with
    | none => 0
    | some def1 =>
      if def1.type == "general" then (ch.skillsGeneral.get? skillName).getD 0
      else
        ((ch.skillsSpecific.get? skillName).getD 0) +
          (match def1.parent with
           | some p => (ch.skillsGeneral.get? p).getD 0
           | none => 0)

/-- `Game.hasDeepSkill`: `char?.deepSkills?.includes(skillName) ?? false`. -/
def hasDeepSkill (g : GameState) (charId skillName : String) : Bool :=
  match getCharacter g charId with
  | none => false
  | some ch => ch.deepSkills.contains skillName

/-- `Game.getCharacterObjectsOfType`: resolve the character's inventory
ids and keep the objects of the requested template type. -/
def getCharacterObjectsOfType (g : GameState) (charId t : String) : List GameObject :=
  match getCharacter g charId with
  | none => []
  | some ch => (ch.inventory.filterMap (fun oid => g.objects.get? oid)).filter
      (fun o => o.templateType == t)

/-- `Game.getCharacterObjectOfType`: first such object or `null`. -/
def getCharacterObjectOfType (g : GameState) (charId t : String) : Option GameObject :=
  (getCharacterObjectsOfType g charId t).head?

end Game

namespace PursuitManager

/-- `PursuitManager.FREE_HOURS`. -/
def FREE_HOURS : Rat := 50

/-- `PursuitManager.HOURS_PER_ACTION`. -/
def HOURS_PER_ACTION : Rat := 20

/-- `PursuitManager.getPursuitHoursCost`: hours cost of one pursuit under
its current configuration (0 if the pursuit or its state is missing or
inactive; mode-specific gating as in the source). -/
def getPursuitHoursCost (C : Content) (ps : Obj PursuitState) (pursuitId : String) : Rat :=
  match C.pursuits.get? pursuitId, ps.get? pursuitId with
  | some pd, some st =>
    if !st.active then 0
    else if pd.configType == "action" then jsNum pd.hoursCost
    else if pd.configType == "toggle" then
      if !st.enabled then 0 else jsNum pd.hoursCost
    else if pd.configType == "select" then
      match st.option with
      | some o => (match pd.options.get? o with
                   | some op => jsNum op.hoursCost
                   | none => 0)
      | none => 0
    else if pd.configType == "number" then
      if (st.value.getD 0) > 0 then jsNum pd.hoursCost else 0
    else 0
  | _, _ => 0

/-- Sum of active pursuits' hours over a present pursuits collection (the
loop body of `calculatePursuitHours`). -/
def pursuitHoursTotal (C : Content) (ps : Obj PursuitState) : Rat :=
  ps.foldl (fun acc p => if !p.2.active then acc else acc + getPursuitHoursCost C ps p.1) 0

/-- `PursuitManager.calculatePursuitHours` on an engine-initialised state
(the pursuits collection present). -/
def calculatePursuitHours (C : Content) (g : GameState) : Rat :=
  pursuitHoursTotal C g.pursuits

/-- `PursuitManager.calculatePursuitHours` as it behaves on a raw loaded
state whose `pursuits` collection may be absent: `Object.entries` on
`undefined` throws a `TypeError`. -/
def calculatePursuitHoursE (C : Content) (ps : Option (Obj PursuitState)) :
    Except String Rat :=
  match ps with
  | none => .error "TypeError: cannot convert undefined to object in Object.entries(game.state.pursuits)"
  | some l => .ok (pursuitHoursTotal C l)

end PursuitManager

namespace ConditionChecker

/-- `ConditionChecker.compare`: the closed operator vocabulary; unknown
operators fail. -/
def jsCompare (current : Rat) (op : String) (target : Rat) : Bool :=
  if op == "<" then current < target
  else if op == "<=" then current ≤ target
  else if op == ">" then current > target
  else if op == ">=" then current ≥ target
  else if op == "==" || op == "=" then current == target
  else if op == "!=" || op == "<>" then !(current == target)
  else false

/-- One leaf-clause pass of `ConditionChecker.check`: every present clause
must hold (implicit conjunction, in source order). -/
def checkLeaf (C : Content) (g : GameState) (c : CondLeaf) : Bool :=
  let pid := g.playerId
  (match c.inChapter with
   | none => true
   | some entries => entries.all (fun p =>
       match g.storylines.get? p.1 with
       | none => false
       | some st => st.currentChapter == p.2)) &&
  (match c.hasFlag with
   | none => true
   | some fs => fs.toList.all (fun f => Game.hasFlag g f)) &&
  (match c.notFlag with
   | none => true
   | some fs => fs.toList.all (fun f => !Game.hasFlag g f)) &&
  (match c.stat with
   | none => true
   | some (statName, op, value) => jsCompare (Game.getStat g pid statName) op value) &&
  (match c.charStat with
   | none => true
   | some (charId, statName, op, value) =>
       jsCompare (Game.getStat g charId statName) op value) &&
  (match c.skill with
   | none => true
   | some (skillName, op, value) =>
       jsCompare (Game.getSkill C g pid skillName) op value) &&
  (match c.hasDeepSkill with
   | none => true
   | some sk => sk.toList.all (fun s => Game.hasDeepSkill g pid s)) &&
  (match c.weekDivisibleBy with
   | none => true
   | some n => g.week % n == 0) &&
  (match c.minWeek with
   | none => true
   | some n => !(g.week < n)) &&
  (match c.maxWeek with
   | none => true
   | some n => !(g.week > n)) &&
  (match c.hasObjectOfType with
   | none => true
   | some t => (Game.getCharacterObjectOfType g pid t).isSome) &&
  (match c.playerHasObjectOfType with
   | none => true
   | some t => (Game.getCharacterObjectOfType g pid t).isSome) &&
  (match c.objectiveProgress with
   | none => true
   | some (storyId, op, value) =>
       let progress := match g.storylines.get? storyId with
         | some st => jsNum st.progress
         | none => 0
       jsCompare progress op value) &&
  (match c.objectiveComplete with
   | none => true
   | some entries => entries.all (fun p =>
       match g.storylines.get? p.1 with
       | none => false
       | some st =>
         st.completed &&
         (match p.2 with
          | .anyResult => true
          | .tag expected => st.result == some expected))) &&
  (match c.objectiveActive with
   | none => true
   | some ids => ids.toList.all (fun sid =>
       match g.storylines.get? sid with
       | none => false
       | some st => !st.completed)) &&
  (match c.pursuitActive with
   | none => true
   | some ids => ids.toList.all (fun pid2 =>
       match g.pursuits.get? pid2 with
       | none => false
       | some st =>
         st.active &&
         !(((C.pursuits.get? pid2).map (fun pd => pd.configType)) == some "toggle"
            && !st.enabled))) &&
  (match c.pursuitOption with
   | none => true
   | some (pid2, expected) =>
       match g.pursuits.get? pid2 with
       | none => false
       | some st => st.option == some expected) &&
  (match c.pursuitHours with
   | none => true
   | some (op, value) =>
       jsCompare (PursuitManager.calculatePursuitHours C g) op value) &&
  (match c.flags with
   | none => true
   | some fs => fs.all (fun f => Game.hasFlag g f))

mutual

/-- `ConditionChecker.check` on a condition record: leaf clauses, then the
`all` / `any` / `not` combinators. -/
def checkCond (C : Content) (g : GameState) : Cond → Bool
  | .mk leaf allC anyC notC =>
    checkLeaf C g leaf &&
    checkAllList C g allC &&
    (match anyC with
     | none => true
     | some l => checkAnyList C g l) &&
    (match notC with
     | none => true
     | some c => !checkCond C g c)

/-- The `all` combinator loop: every sub-condition must pass. -/
def checkAllList (C : Content) (g : GameState) : List Cond → Bool
  | [] => true
  | c :: cs => checkCond C g c && checkAllList C g cs

/-- The `any` combinator loop: short-circuits on the first pass; a
present-but-empty list fails. -/
def checkAnyList (C : Content) (g : GameState) : List Cond → Bool
  | [] => false
  | c :: cs => checkCond C g c || checkAnyList C g cs

end

/-- `ConditionChecker.check` entry point: an absent condition record is
always true. -/
def check (C : Content) (g : GameState) : Option Cond → Bool
  | none => true
  | some c => checkCond C g c

end ConditionChecker

namespace Game

/-- `Game.getWeekProgress`: fraction of the week elapsed,
`used / (weekStartActions + 1)`; the `+ 1` in the denominator is the
source's allowance for a week-end evaluation point. -/
def getWeekProgress (g : GameState) : Rat :=
  (g.weekStartActions - g.actionsRemaining) / (g.weekStartActions + 1)

/-- The skip test `!event.probability || event.probability >= 1` in
`scheduleNewEvents`: absent, zero (JS falsy) or ≥ 1 probabilities get no
schedule entry. -/
def probAlwaysOn (ev : EventDef) : Bool :=
  match ev.probability with
  | none => true
  | some p => p == 0 || p ≥ 1

/-- The gate `event.probability && event.probability < 1` in
`evaluateEvents`: only events with a truthy sub-1 probability consult the
weekly schedule. -/
def probGated (ev : EventDef) : Bool :=
  match ev.probability with
  | none => false
  | some p => !(p == 0) && p < 1

/-- Loop body of `Game.scheduleNewEvents` for one `[id, event]` entry of
`Object.entries(Events)`: skip if scheduled / completed / conditions fail /
no sub-1 truthy probability, otherwise roll once; a failed roll stores
`{passed:false}`, a passed roll draws `triggerAt` and marks `missed` when
the trigger point lies before the current progress. -/
def scheduleStep (C : Content) (progress : Rat) (r : Nat → Rat)
    (acc : GameState × Nat) (entry : String × EventDef) : GameState × Nat :=
  let (g, i) := acc
  let (id, ev) := entry
  if (g.eventSchedule.get? id).isSome then (g, i)
  else if g.completedEvents.contains id then (g, i)
  else if !ConditionChecker.check C g ev.conditions then (g, i)
  else if probAlwaysOn ev then (g, i)
  else
    let p := jsNum ev.probability
    if r i > p then
      ({ g with eventSchedule := g.eventSchedule.set id .notPassed }, i + 1)
    else
      let triggerAt := r (i + 1)
      let missed := triggerAt < progress
      ({ g with eventSchedule :=
           g.eventSchedule.set id (.scheduled triggerAt false missed) }, i + 2)

/-- `Game.scheduleNewEvents`: progress is computed once, then every event
entry is processed in discovery order. -/
def scheduleNewEvents (C : Content) (g : GameState) (r : Nat → Rat) (i : Nat) :
    GameState × Nat :=
  C.events.foldl (scheduleStep C (getWeekProgress g) r) (g, i)

/-- The per-event schedule gate in `Game.evaluateEvents`: the entry must
exist, have passed its roll, not be missed, have reached its trigger
point, and not have fired yet. -/
def scheduleAllows (e : Option ScheduleEntry) (progress : Rat) : Bool :=
  match e with
  | none => false
  | some .notPassed => false
  | some (.scheduled triggerAt triggered missed) =>
    !missed && !(triggerAt > progress) && !triggered

/-- The eligibility filter of `Game.evaluateEvents`: not retired,
conditions hold, and (for probability-gated events) the schedule allows
firing at the current progress. -/
def eligibleEvents (C : Content) (g : GameState) : List (String × EventDef) :=
  C.events.filter (fun p =>
    !g.completedEvents.contains p.1 &&
    ConditionChecker.check C g p.2.conditions &&
    (!probGated p.2 || scheduleAllows (g.eventSchedule.get? p.1) (getWeekProgress g)))

/-- Priority with the `(event.priority || 0)` default used by the sort
comparator. -/
def evPriority (ev : EventDef) : Rat := jsNum ev.priority

/-- Stable insertion step for the priority sort: a new element goes in
front of the first element whose priority it reaches (ties keep the
earlier element first, as the stable JS `Array.prototype.sort` does). -/
def insertPrioDesc (x : String × EventDef) :
    List (String × EventDef) → List (String × EventDef)
  | [] => [x]
  | y :: ys => if evPriority x.2 ≥ evPriority y.2 then x :: y :: ys
               else y :: insertPrioDesc x ys

/-- Stable sort by descending priority, modelling
`eligible.sort((a, b) => (b.event.priority || 0) - (a.event.priority || 0))`. -/
def sortPrioDesc : List (String × EventDef) → List (String × EventDef)
  | [] => []
  | x :: xs => insertPrioDesc x (sortPrioDesc xs)

/-- Marking `schedule.triggered = true` on the winner's entry.  (On a
`{passed:false}` entry JS adds an inert field no reader consults; the
model keeps the entry unchanged.) -/
def markTriggered : ScheduleEntry → ScheduleEntry
  | .notPassed => .notPassed
  | .scheduled t _ m => .scheduled t true m

/-- The supersede loop of `Game.evaluateEvents` over the
eligible-but-not-chosen events (in sorted order): an `onSuperseded` of
`'remove'` pushes the event into the permanently-retired set, anything
else (`'reschedule'` included) does nothing. -/
def supersedeFold (l : List (String × EventDef)) (acc : GameState) : GameState :=
  l.foldl (fun acc2 p =>
    if p.2.onSuperseded == some "remove" then
      { acc2 with completedEvents := acc2.completedEvents ++ [p.1] }
    else acc2) acc

/-- The selection and supersede block of `Game.evaluateEvents` (after
`scheduleNewEvents` has run): collect eligible events, stable-sort by
priority, mark the winner's schedule entry triggered, run the supersede
loop over the rest, and report the winner, whose handler / effect payload
the source then executes. -/
def selectAndSupersede (C : Content) (g : GameState) : GameState × Option String :=
  match sortPrioDesc (eligibleEvents C g) with
  | [] => (g, none)
  | w :: rest =>
    let g1 := match g.eventSchedule.get? w.1 with
      | some e => { g with eventSchedule := g.eventSchedule.set w.1 (markTriggered e) }
      | none => g
    (supersedeFold rest g1, some w.1)

/-- `Game.evaluateEvents` up to the execution hand-off: schedule newly
eligible probabilistic events, then select and supersede. -/
def evaluateEvents (C : Content) (g : GameState) (r : Nat → Rat) (i : Nat) :
    GameState × Nat × Option String :=
  let (g1, i1) := scheduleNewEvents C g r i
  let (g2, w) := selectAndSupersede C g1
  (g2, i1, w)

/-- `Game.advanceChapter`: move the storyline's cursor and set the
just-entered marker; all other storyline fields are untouched. -/
def advanceChapter (g : GameState) (storyId chapterId : String) : GameState :=
  match g.storylines.get? storyId with
  | none => g
  | some st =>
    let st2 := { st with currentChapter := chapterId, enteredChapter := true }
    { g with storylines := g.storylines.set storyId st2 }

/-- Loop body of the transition pass of `Game.evaluateStorylines` for one
storyline: failure is checked first; when it fires the advance check is
skipped (`continue`); otherwise the advance transition may fire. -/
def stepStoryline (C : Content) (g : GameState) (storyId : String) : GameState :=
  match g.storylines.get? storyId with
  | none => g
  | some st =>
    match C.stories.get? storyId with
    | none => g
    | some story =>
      match story.chapters.get? st.currentChapter with
      | none => g
      | some ch =>
        if ch.failWhen.isSome && jsTruthyS ch.failTo &&
            ConditionChecker.check C g ch.failWhen then
          advanceChapter g storyId (ch.failTo.getD "")
        else if ch.advanceWhen.isSome && jsTruthyS ch.advanceTo &&
            ConditionChecker.check C g ch.advanceWhen then
          advanceChapter g storyId (ch.advanceTo.getD "")
        else g

/-- The transition pass of `Game.evaluateStorylines`: iterate over the
storyline keys snapshot in insertion order, threading the state. -/
def storylinesPass (C : Content) (g : GameState) : GameState :=
  (g.storylines.map Prod.fst).foldl (stepStoryline C) g

/-- Loop body of `Game.checkObjectiveCompletions` for one storyline:
already-completed storylines are skipped; a first visit to a chapter with
a truthy `objectiveResult` marks the storyline completed with that result
(the completion handler / effect hand-off then runs in the source). -/
def completionStep (C : Content) (g : GameState) (storyId : String) : GameState :=
  match g.storylines.get? storyId with
  | none => g
  | some st =>
    if st.completed then g
    else
      match C.stories.get? storyId with
      | none => g
      | some story =>
        match story.chapters.get? st.currentChapter with
        | none => g
        | some ch =>
          if jsTruthyS ch.objectiveResult then
            let st2 := { st with completed := true, result := ch.objectiveResult }
            { g with storylines := g.storylines.set storyId st2 }
          else g

/-- `Game.checkObjectiveCompletions` over the storyline keys snapshot. -/
def checkObjectiveCompletions (C : Content) (g : GameState) : GameState :=
  (g.storylines.map Prod.fst).foldl (completionStep C) g

/-- `Game.evaluateStorylines`: the transition pass followed by the
objective-completion pass. -/
def evaluateStorylines (C : Content) (g : GameState) : GameState :=
  checkObjectiveCompletions C (storylinesPass C g)

end Game

namespace PursuitManager

/-- Result record of `calculateEffectiveActions`. -/
structure EffectiveActions where
  guaranteed : Int
  bonusChance : Rat
deriving DecidableEq, Repr

/-- `PursuitManager.calculateEffectiveActions`: hours beyond the free
budget convert to an action penalty; the floor is guaranteed and the
fractional remainder is the bonus chance. -/
def calculateEffectiveActions (C : Content) (g : GameState) : EffectiveActions :=
  let baseActions : Rat := Config.actionsPerPeriod
  let pursuitHours := calculatePursuitHours C g
  let excessHours := max 0 (pursuitHours - FREE_HOURS)
  let actionPenalty := excessHours / HOURS_PER_ACTION
  let effectiveActions := max 0 (baseActions - actionPenalty)
  { guaranteed := ⌊effectiveActions⌋,
    bonusChance := effectiveActions - ⌊effectiveActions⌋ }

end PursuitManager

namespace Game

/-- The action-budget fragment of `Game.startWeek` (through the bonus
roll): `actionsRemaining` becomes the guaranteed count, plus one if
`bonusChance > 0` and a single draw lands below it; the draw is consumed
only when `bonusChance > 0` (JS short-circuit).  The rest of `startWeek`
(weekly pursuit effects, schedule reset, re-evaluation) follows in the
source. -/
def startWeekActions (C : Content) (g : GameState) (r : Nat → Rat) (i : Nat) :
    GameState × Nat :=
  let a := PursuitManager.calculateEffectiveActions C g
  if a.bonusChance > 0 then
    if r i < a.bonusChance then
      ({ g with actionsRemaining := (a.guaranteed : Rat) + 1 }, i + 1)
    else
      ({ g with actionsRemaining := (a.guaranteed : Rat) }, i + 1)
  else
    ({ g with actionsRemaining := (a.guaranteed : Rat) }, i)

/-- State component of a save record as parsed back from storage
(`JSON.parse` in `Game.load`): collections introduced after the save was
written are absent.  Only the component the claims exercise (the pursuits
map added by the pursuit subsystem) is carried alongside a representative
core field. -/
structure ParsedState where
  week : Int := 1
  pursuits : Option (Obj PursuitState) := none

/-- A parsed save record (`{state, nextId, meta}`). -/
structure ParsedSave where
  state : ParsedState
  nextId : Int := 1

/-- `Game.load`: `this.state = parsed.state` — the parsed state is
installed verbatim, with no defaulting of absent collections. -/
def load (s : ParsedSave) : ParsedState := s.state

end Game

namespace AbilityChecker

/-- Decimal value of a digit run (the `parseInt` of a regex capture). -/
def digitsToNat (l : List Char) : Nat :=
  l.foldl (fun acc c => 10 * acc + (c.toNat - '0'.toNat)) 0

/-- Attempt of the regex `(\d+)d(\d+)` at the start of the character
list: a maximal nonempty digit run, the literal `d`, then a maximal
nonempty digit run.  (Backtracking inside `\d+` never helps because `d`
is not a digit, so the greedy runs are exact.) -/
def diceMatchAt (l : List Char) : Option (Nat × Nat) :=
  let run1 := l.takeWhile Char.isDigit
  if run1.isEmpty then none
  else
    match l.drop run1.length with
    | 'd' :: rest =>
      let run2 := rest.takeWhile Char.isDigit
      if run2.isEmpty then none
      else some (digitsToNat run1, digitsToNat run2)
    | _ => none

/-- Leftmost match of the unanchored regex search
`notationString.match(/(\d+)d(\d+)/)`: try each start position from the
left. -/
def diceSearch : List Char → Option (Nat × Nat)
  | [] => none
  | c :: rest =>
    match diceMatchAt (c :: rest) with
    | some m => some m
    | none => diceSearch rest

/-- `AbilityChecker.parseDice`: `"2d6" -> (2, 6)`; when the regex finds no
match anywhere, the fallback is one twenty-sided die `(1, 20)`. -/
def parseDice (s : String) : Nat × Nat :=
  (diceSearch s.data).getD (1, 20)

/-- The dice-summing loop of `rollDice`: each die is
`Math.floor(random() * sides) + 1`, draws consumed in order. -/
def rollDiceLoop (sides : Nat) (r : Nat → Rat) : Nat → Nat → Int × Nat
  | 0, i => (0, i)
  | n + 1, i =>
    let die := ⌊r i * (sides : Rat)⌋ + 1
    let (rest, i2) := rollDiceLoop sides r n (i + 1)
    (die + rest, i2)

/-- `AbilityChecker.rollDice`: parse the dice expression and sum the
rolls. -/
def rollDice (s : String) (r : Nat → Rat) (i : Nat) : Int × Nat :=
  let (count, sides) := parseDice s
  rollDiceLoop sides r count i

/-- A stat-scaled bonus entry of a check spec. -/
structure Bonus where
  stat : String
  scale : Option Rat := none
deriving Repr

/-- A conditional difficulty modifier of a check spec. -/
structure Modifier where
  condition : Option Cond := none
  add : Rat := 0

/-- A resolved (inline) ability-check spec.  `difficulty` carries the
numeric case, for which `resolveDifficulty` is the identity; the
registry/`ref` merge of `resolveCheck` and the dotted entity-path
difficulties are outside the modelled fragment (the claims use inline
numeric specs). -/
structure CheckSpec where
  skill : Option String := none
  dice : Option String := none
  difficulty : Option Rat := none
  crushMargin : Option Rat := none
  bonuses : List Bonus := []
  modifiers : List Modifier := []

/-- `AbilityChecker.validateCheck`: required-field errors in source order;
JS truthiness makes an empty `skill`/`dice` string count as missing, while
`difficulty` is only checked against `null`/`undefined`. -/
def validateCheck (spec : CheckSpec) : List String :=
  (if !jsTruthyS spec.skill then ["Missing required field: skill"] else []) ++
  (if !jsTruthyS spec.dice then ["Missing required field: dice"] else []) ++
  (if spec.difficulty.isNone then ["Missing required field: difficulty"] else [])

/-- Outcome tiers of a skill check. -/
inductive Outcome where
  | crushingFailure
  | failure
  | success
  | crushingSuccess
deriving DecidableEq, Repr

/-- Tier order, crushing failure lowest. -/
def Outcome.rank : Outcome → Nat
  | .crushingFailure => 0
  | .failure => 1
  | .success => 2
  | .crushingSuccess => 3

/-- The outcome cascade at the end of `AbilityChecker.check`, in source
order: crushing success, success, crushing failure, else failure; the
crushing branches require a truthy (nonzero) `crushMargin`. -/
def outcomeOf (crushMargin : Option Rat) (playerRoll effectiveDifficulty : Rat) :
    Outcome :=
  if jsTruthyN crushMargin ∧ effectiveDifficulty + jsNum crushMargin ≤ playerRoll then
    .crushingSuccess
  else if effectiveDifficulty ≤ playerRoll then .success
  else if jsTruthyN crushMargin ∧ playerRoll < effectiveDifficulty - jsNum crushMargin then
    .crushingFailure
  else .failure

/-- Result record of `AbilityChecker.check`.  The early validation-error
return carries only `outcome` and `error` in the source; the numeric
fields then hold their defaults here. -/
structure CheckResult where
  outcome : Outcome
  playerRoll : Rat := 0
  effectiveDifficulty : Rat := 0
  roll : Int := 0
  skillValue : Rat := 0
  margin : Rat := 0
  error : Option String := none
deriving DecidableEq, Repr

/-- `AbilityChecker.check`: validate, build the player value (base skill,
deep-memory bonus of +100 with the specialty or +30 without, floored
stat-scaled bonuses), roll the dice, apply every modifier whose guard
condition holds to the difficulty, and grade the outcome. -/
def check (C : Content) (g : GameState) (spec : CheckSpec) (useDeepMemory : Bool)
    (r : Nat → Rat) (i : Nat) : CheckResult × Nat :=
  let errors := validateCheck spec
  if !errors.isEmpty then
    ({ outcome := .failure, error := some (String.intercalate ", " errors) }, i)
  else
    let pid := g.playerId
    let skillName := spec.skill.getD ""
    let base := Game.getSkill C g pid skillName
    let withDeep := if useDeepMemory then
        base + (if Game.hasDeepSkill g pid skillName then 100 else 30)
      else base
    let playerValue := spec.bonuses.foldl
      (fun pv b => pv + ((⌊Game.getStat g pid b.stat * b.scale.getD 1⌋ : Int) : Rat))
      withDeep
    let (roll, i2) := rollDice (spec.dice.getD "") r i
    let playerRoll := playerValue + (roll : Rat)
    let baseDifficulty := spec.difficulty.getD 0
    let effectiveDifficulty := spec.modifiers.foldl
      (fun d m => if ConditionChecker.check C g m.condition then d + m.add else d)
      baseDifficulty
    ({ outcome := outcomeOf spec.crushMargin playerRoll effectiveDifficulty,
       playerRoll := playerRoll,
       effectiveDifficulty := effectiveDifficulty,
       roll := roll,
       skillValue := playerValue,
       margin := playerRoll - effectiveDifficulty }, i2)

/-- Modelled from the claim's wording (C4), for comparison with the
source's `outcomeOf`: crushing failure iff `crushMargin` is given and
`total < difficulty - crushMargin`; otherwise failure iff
`total < difficulty`; crushing success iff `crushMargin` is given and
`total ≥ difficulty + crushMargin`; otherwise success.  "Given" is read
as field presence. -/
def claimOutcomeTiers (crushMargin : Option Rat) (playerRoll effectiveDifficulty : Rat) :
    Outcome :=
  match crushMargin with
  | some c =>
    if playerRoll < effectiveDifficulty - c then .crushingFailure
    else if playerRoll < effectiveDifficulty then .failure
    else if effectiveDifficulty + c ≤ playerRoll then .crushingSuccess
    else .success
  | none =>
    if playerRoll < effectiveDifficulty then .failure else .success

end AbilityChecker

/-! ### Concrete fixtures used by the counterexamples and witnesses -/

/-- Story with a terminal (objective-result) chapter that also declares an
always-true advance transition. -/
def storyFrozen : Story :=
  { chapters :=
      [("done", { objectiveResult := some "success",
                  advanceWhen := some Cond.trivial, advanceTo := some "later" }),
       ("later", {})] }

/-- Content for the completed-storyline cursor experiment. -/
def contentFrozen : Content := { stories := [("obj", storyFrozen)] }

/-- State with the storyline already completed at the terminal chapter. -/
def stateFrozen : GameState :=
  { storylines := [("obj", { currentChapter := "done", enteredChapter := false,
                             completed := true, result := some "success" })] }

/-- Two probabilistic events: one with probability `0`, one already in the
permanently-retired set. -/
def contentProbZero : Content :=
  { events := [("e0", { probability := some 0 }),
               ("e1", { probability := some (1/2) })] }

/-- State where `e1` is retired and nothing is scheduled yet. -/
def stateProbZero : GameState := { completedEvents := ["e1"] }

/-- A constant injected random stream. -/
def randHalf : Nat → Rat := fun _ => 1/2

/-- Two always-eligible events; the lower-priority one declares the
spec's `retire` supersede literal (the source only recognises
`'remove'`). -/
def contentSupersede : Content :=
  { events := [("e1", { priority := some 10 }),
               ("e2", { priority := some 5, onSuperseded := some "retire" })] }

/-- Plain state for the supersede experiment. -/
def stateSupersede : GameState := {}

/-- Skill registry with one general skill. -/
def contentChecks : Content := { skills := [("streetwise", { type := "general" })] }

/-- Player with general skill value 30. -/
def stateSkill30 : GameState :=
  { playerId := "player",
    characters := [("player", { skillsGeneral := [("streetwise", 30)] })] }

/-- Player with general skill value 50. -/
def stateSkill50 : GameState :=
  { playerId := "player",
    characters := [("player", { skillsGeneral := [("streetwise", 50)] })] }

/-- Check spec of the first scenario: skill 30, 2d6 versus difficulty 40. -/
def specPlain : AbilityChecker.CheckSpec :=
  { skill := some "streetwise", dice := some "2d6", difficulty := some 40 }

/-- Check spec of the second scenario: crush margin 15. -/
def specCrush : AbilityChecker.CheckSpec :=
  { skill := some "streetwise", dice := some "2d6", difficulty := some 40,
    crushMargin := some 15 }

/-- Stream making each d6 roll `⌊6·(5/6)⌋ + 1 = 6`. -/
def randSix : Nat → Rat := fun _ => 5/6

/-- Pursuit content totalling 62 weekly hours when both are active: an
action-gated job of 40 hours and an enabled 22-hour toggle. -/
def contentHours : Content :=
  { pursuits := [("job", { configType := "action", hoursCost := some 40 }),
                 ("gym", { configType := "toggle", hoursCost := some 22 })] }

/-- State with both pursuits active (and the toggle enabled). -/
def stateHours : GameState :=
  { pursuits := [("job", { active := true }),
                 ("gym", { active := true, enabled := true })] }

/-- An old save record: its serialized state predates the pursuit
subsystem, so the `pursuits` collection is absent. -/
def oldSave : Game.ParsedSave := { state := { week := 5 } }

/-- Story with a terminal chapter that declares no transitions at all. -/
def storyPlainDone : Story :=
  { chapters := [("done", { objectiveResult := some "success" })] }

/-- Content for the transition-free completed storyline. -/
def contentPlainDone : Content := { stories := [("obj2", storyPlainDone)] }

/-- The completed storyline record sitting at the transition-free terminal
chapter. -/
def stPlainDone : Storyline :=
  { currentChapter := "done", enteredChapter := false,
    completed := true, result := some "success" }

/-- State holding the completed, transition-free storyline. -/
def statePlainDone : GameState := { storylines := [("obj2", stPlainDone)] }

/-- A chapter declaring both transitions with always-true conditions. -/
def chBoth : Chapter :=
  { failWhen := some Cond.trivial, failTo := some "bad",
    advanceWhen := some Cond.trivial, advanceTo := some "good" }

/-- Story whose chapter declares both transitions with always-true
conditions. -/
def storyBoth : Story :=
  { chapters := [("ch", chBoth), ("bad", {}), ("good", {})] }

/-- Content for the fail-precedence experiment. -/
def contentBoth : Content := { stories := [("s", storyBoth)] }

/-- The storyline record at the both-transitions chapter. -/
def stBoth : Storyline := { currentChapter := "ch" }

/-- State holding the both-transitions storyline. -/
def stateBoth : GameState := { storylines := [("s", stBoth)] }

/-- Three always-eligible events with the source's supersede literals:
a winner, a `'remove'` loser and a `'reschedule'` loser. -/
def contentPolicies : Content :=
  { events := [("hi", { priority := some 9 }),
               ("rm", { priority := some 4, onSuperseded := some "remove" }),
               ("rq", { priority := some 2, onSuperseded := some "reschedule" })] }

/-- Plain state for the policies experiment. -/
def statePolicies : GameState := {}

/-! ### Helper lemmas -/

theorem Obj.get?_set_self {α : Type} (o : Obj α) (k : String) (v : α) :
    (o.set k v).get? k = some v := by
  induction o with
  | nil => simp [Obj.set, Obj.get?]
  | cons hd tl ih =>
    rcases hd with ⟨k1, v1⟩
    by_cases h : k1 = k
    · simp [Obj.set, Obj.get?, h]
    · simp [Obj.set, Obj.get?, h, ih]

theorem Obj.get?_set_ne {α : Type} (o : Obj α) (k k2 : String) (v : α) (h : k2 ≠ k) :
    (o.set k v).get? k2 = o.get? k2 := by
  induction o with
  | nil => simp [Obj.set, Obj.get?, Ne.symm h]
  | cons hd tl ih =>
    rcases hd with ⟨k1, v1⟩
    by_cases h1 : k1 = k
    · subst h1
      simp [Obj.set, Obj.get?, Ne.symm h]
    · by_cases h2 : k1 = k2
      · simp [Obj.set, Obj.get?, h1, h2, h]
      · simp [Obj.set, Obj.get?, h1, h2, ih]

theorem foldlInvariant {σ α : Type} (f : σ → α → σ) (P : σ → Prop) :
    ∀ (l : List α) (s : σ), P s → (∀ s2 a, a ∈ l → P s2 → P (f s2 a)) → P (l.foldl f s)
  | [], s, hs, _ => hs
  | a :: l, s, hs, hstep =>
    foldlInvariant f P l (f s a) (hstep s a (List.mem_cons_self a l) hs)
      (fun s2 b hb hP => hstep s2 b (List.mem_cons_of_mem a hb) hP)

theorem advanceChapter_get_other (g : GameState) (sid sid2 ch : String) (h : sid ≠ sid2) :
    (Game.advanceChapter g sid2 ch).storylines.get? sid = g.storylines.get? sid := by
  unfold Game.advanceChapter
  cases hx : g.storylines.get? sid2 with
  | none => rfl
  | some st => simp [Obj.get?_set_ne _ _ _ _ h]

theorem advanceChapter_get_self (g : GameState) (sid ch : String) (st : Storyline)
    (h : g.storylines.get? sid = some st) :
    (Game.advanceChapter g sid ch).storylines.get? sid =
      some { st with currentChapter := ch, enteredChapter := true } := by
  unfold Game.advanceChapter
  rw [h]
  simp [Obj.get?_set_self]

theorem stepStoryline_get_other (C : Content) (g : GameState) (sid sid2 : String)
    (h : sid ≠ sid2) :
    (Game.stepStoryline C g sid2).storylines.get? sid = g.storylines.get? sid := by
  unfold Game.stepStoryline
  repeat' split
  all_goals first
    | rfl
    | exact advanceChapter_get_other _ _ _ _ h

theorem completionStep_get_other (C : Content) (g : GameState) (sid sid2 : String)
    (h : sid ≠ sid2) :
    (Game.completionStep C g sid2).storylines.get? sid = g.storylines.get? sid := by
  unfold Game.completionStep
  repeat' split
  all_goals first
    | rfl
    | exact Obj.get?_set_ne _ _ _ _ h

theorem stepStoryline_preserves (C : Content) (g : GameState) (sid : String)
    (st : Storyline) (hst : g.storylines.get? sid = some st) :
    ∃ st2, (Game.stepStoryline C g sid).storylines.get? sid = some st2 ∧
      st2.completed = st.completed ∧ st2.result = st.result := by
  unfold Game.stepStoryline
  rw [hst]
  repeat' split
  all_goals first
    | exact ⟨st, hst, rfl, rfl⟩
    | (exact ⟨_, advanceChapter_get_self g sid _ st hst, rfl, rfl⟩)

theorem completionStep_of_completed (C : Content) (g : GameState) (sid : String)
    (st : Storyline) (hst : g.storylines.get? sid = some st)
    (hc : st.completed = true) :
    Game.completionStep C g sid = g := by
  unfold Game.completionStep
  rw [hst]
  repeat' split
  all_goals first | rfl | simp_all

/-- The claim C1: once `completed` is true, the transition pass no longer
moves the chapter cursor.  The transition pass does not consult
`completed`, so this fails; what does hold is the amended statement: the
`completed` flag and result tag are frozen, and the cursor is frozen
exactly when the current (terminal) chapter declares no fail or advance
transition. -/
theorem claim_C1 (C : Content) (g : GameState) (sid : String) (st : Storyline)
    (hst : g.storylines.get? sid = some st) (hc : st.completed = true) :
    (∃ st2, (Game.evaluateStorylines C g).storylines.get? sid = some st2 ∧
       st2.completed = true ∧ st2.result = st.result) ∧
    ((∀ story ch, C.stories.get? sid = some story →
        story.chapters.get? st.currentChapter = some ch →
        (ch.failWhen.isSome && jsTruthyS ch.failTo) = false ∧
        (ch.advanceWhen.isSome && jsTruthyS ch.advanceTo) = false) →
      (Game.evaluateStorylines C g).storylines.get? sid = some st) := by
  constructor
  · -- completed / result frozen
    have hP1 : ∀ g2 : GameState,
        (∃ st2, g2.storylines.get? sid = some st2 ∧ st2.completed = true ∧
          st2.result = st.result) →
        ∀ a, (∃ st2, (Game.stepStoryline C g2 a).storylines.get? sid = some st2 ∧
          st2.completed = true ∧ st2.result = st.result) := by
      intro g2 ⟨st2, hg2, hcomp, hres⟩ a
      by_cases heq : sid = a
      · subst heq
        obtain ⟨st3, hg3, hc3, hr3⟩ := stepStoryline_preserves C g2 sid st2 hg2
        exact ⟨st3, hg3, by rw [hc3, hcomp], by rw [hr3, hres]⟩
      · exact ⟨st2, by rw [stepStoryline_get_other C g2 sid a heq]; exact hg2, hcomp, hres⟩
    have hP2 : ∀ g2 : GameState,
        (∃ st2, g2.storylines.get? sid = some st2 ∧ st2.completed = true ∧
          st2.result = st.result) →
        ∀ a, (∃ st2, (Game.completionStep C g2 a).storylines.get? sid = some st2 ∧
          st2.completed = true ∧ st2.result = st.result) := by
      intro g2 ⟨st2, hg2, hcomp, hres⟩ a
      by_cases heq : sid = a
      · subst heq
        rw [completionStep_of_completed C g2 sid st2 hg2 hcomp]
        exact ⟨st2, hg2, hcomp, hres⟩
      · exact ⟨st2, by rw [completionStep_get_other C g2 sid a heq]; exact hg2, hcomp, hres⟩
    unfold Game.evaluateStorylines Game.checkObjectiveCompletions Game.storylinesPass
    have h1 := foldlInvariant (Game.stepStoryline C)
      (fun g2 => ∃ st2, g2.storylines.get? sid = some st2 ∧ st2.completed = true ∧
        st2.result = st.result)
      (g.storylines.map Prod.fst) g ⟨st, hst, hc, rfl⟩
      (fun s2 a _ hP => hP1 s2 hP a)
    exact foldlInvariant (Game.completionStep C)
      (fun g2 => ∃ st2, g2.storylines.get? sid = some st2 ∧ st2.completed = true ∧
        st2.result = st.result)
      _ _ h1 (fun s2 a _ hP => hP2 s2 hP a)
  · -- cursor frozen when the terminal chapter declares no transitions
    intro hno
    have hstep : ∀ g2 : GameState, g2.storylines.get? sid = some st →
        ∀ a, (Game.stepStoryline C g2 a).storylines.get? sid = some st := by
      intro g2 hg2 a
      by_cases heq : sid = a
      · subst heq
        unfold Game.stepStoryline
        simp only [hg2]
        cases hstory : C.stories.get? sid with
        | none => exact hg2
        | some story =>
          simp only []
          cases hch : story.chapters.get? st.currentChapter with
          | none => exact hg2
          | some ch =>
            obtain ⟨hf, ha⟩ := hno story ch hstory hch
            simp only [hf, ha, Bool.false_and, Bool.false_eq_true, if_false]
            exact hg2
      · rw [stepStoryline_get_other C g2 sid a heq]; exact hg2
    have hcomp : ∀ g2 : GameState, g2.storylines.get? sid = some st →
        ∀ a, (Game.completionStep C g2 a).storylines.get? sid = some st := by
      intro g2 hg2 a
      by_cases heq : sid = a
      · subst heq
        rw [completionStep_of_completed C g2 sid st hg2 hc]
        exact hg2
      · rw [completionStep_get_other C g2 sid a heq]; exact hg2
    unfold Game.evaluateStorylines Game.checkObjectiveCompletions Game.storylinesPass
    have h1 := foldlInvariant (Game.stepStoryline C)
      (fun g2 => g2.storylines.get? sid = some st)
      (g.storylines.map Prod.fst) g hst (fun s2 a _ hP => hstep s2 hP a)
    exact foldlInvariant (Game.completionStep C)
      (fun g2 => g2.storylines.get? sid = some st)
      _ _ h1 (fun s2 a _ hP => hcomp s2 hP a)

/-- Witness for C1 at a concrete completed storyline whose terminal
chapter declares no transitions: the record survives a full evaluation
pass unchanged. -/
theorem claim_C1_witness :
    statePlainDone.storylines.get? "obj2" = some stPlainDone ∧
    stPlainDone.completed = true ∧
    ((∃ st2, (Game.evaluateStorylines contentPlainDone statePlainDone).storylines.get? "obj2" =
        some st2 ∧ st2.completed = true ∧ st2.result = stPlainDone.result) ∧
     ((∀ story ch, contentPlainDone.stories.get? "obj2" = some story →
         story.chapters.get? stPlainDone.currentChapter = some ch →
         (ch.failWhen.isSome && jsTruthyS ch.failTo) = false ∧
         (ch.advanceWhen.isSome && jsTruthyS ch.advanceTo) = false) →
       (Game.evaluateStorylines contentPlainDone statePlainDone).storylines.get? "obj2" =
         some stPlainDone)) :=
  ⟨by decide, by decide,
   claim_C1 contentPlainDone statePlainDone "obj2" stPlainDone (by decide) (by decide)⟩

/-- Counterexample to C1 as stated: a storyline whose `completed` flag is
true but whose current chapter declares a satisfied advance transition
still has its chapter cursor moved by the next evaluation pass. -/
theorem claim_C1_counterexample :
    (stateFrozen.storylines.get? "obj").map Storyline.completed = some true ∧
    (stateFrozen.storylines.get? "obj").map Storyline.currentChapter = some "done" ∧
    ((Game.evaluateStorylines contentFrozen stateFrozen).storylines.get? "obj").map
        Storyline.currentChapter = some "later" :=
  ⟨by decide, by decide, by decide⟩

/-- The claim C8: when a chapter declares both transitions and both
conditions hold at a storyline's turn in the evaluation pass, the fail
transition wins and the advance check is skipped. -/
theorem claim_C8 (C : Content) (g : GameState) (sid : String) (st : Storyline)
    (story : Story) (ch : Chapter) (fw : Cond) (ft : String) (aw : Cond) (av : String)
    (hst : g.storylines.get? sid = some st)
    (hstory : C.stories.get? sid = some story)
    (hch : story.chapters.get? st.currentChapter = some ch)
    (hfw : ch.failWhen = some fw) (hft : ch.failTo = some ft) (hft2 : ft ≠ "")
    (haw : ch.advanceWhen = some aw) (hav : ch.advanceTo = some av) (hav2 : av ≠ "")
    (hcf : ConditionChecker.check C g ch.failWhen = true)
    (hca : ConditionChecker.check C g ch.advanceWhen = true) :
    (Game.stepStoryline C g sid).storylines.get? sid =
      some { st with currentChapter := ft, enteredChapter := true } := by
  unfold Game.stepStoryline
  simp only [hst, hstory, hch]
  have hcond : (ch.failWhen.isSome && jsTruthyS ch.failTo &&
      ConditionChecker.check C g ch.failWhen) = true := by
    rw [hfw, hft, show ConditionChecker.check C g (some fw) = true from hfw ▸ hcf]
    simp [jsTruthyS, hft2]
  rw [if_pos hcond]
  rw [hft]
  simpa using advanceChapter_get_self g sid ft st hst

/-- Witness for C8: both conditions of `chBoth` hold, and the storyline
lands on the fail target `"bad"`, not the advance target. -/
theorem claim_C8_witness :
    ConditionChecker.check contentBoth stateBoth chBoth.failWhen = true ∧
    ConditionChecker.check contentBoth stateBoth chBoth.advanceWhen = true ∧
    (Game.stepStoryline contentBoth stateBoth "s").storylines.get? "s" =
      some { stBoth with currentChapter := "bad", enteredChapter := true } :=
  ⟨by decide, by decide,
   claim_C8 contentBoth stateBoth "s" stBoth storyBoth chBoth Cond.trivial "bad"
     Cond.trivial "good" (by decide) rfl rfl rfl rfl (by decide) rfl rfl (by decide)
     (by decide) (by decide)⟩

/-- The claim C2 amended to events with a truthy (nonzero) sub-1
probability that are not permanently retired: the scheduler rolls such an
event exactly once at its scheduling step (one draw for the roll; on a
pass, one further draw for the trigger point, with `missed` exactly when
the trigger point lies before the progress at the moment of scheduling),
and a whole scheduling pass never overwrites an existing entry, so a
failed roll or a miss is never re-rolled within the week. -/
theorem claim_C2 :
    (∀ (C : Content) (prog : Rat) (r : Nat → Rat) (g : GameState) (i : Nat)
       (id : String) (ev : EventDef) (p : Rat),
      g.eventSchedule.get? id = none →
      g.completedEvents.contains id = false →
      ConditionChecker.check C g ev.conditions = true →
      ev.probability = some p → p ≠ 0 → p < 1 →
      ((r i > p →
        Game.scheduleStep C prog r (g, i) (id, ev) =
          ({ g with eventSchedule := g.eventSchedule.set id .notPassed }, i + 1)) ∧
       (¬(r i > p) →
        Game.scheduleStep C prog r (g, i) (id, ev) =
          ({ g with eventSchedule := g.eventSchedule.set id (.scheduled (r (i + 1)) false (r (i + 1) < prog)) }, i + 2)))) ∧
    (∀ (C : Content) (g : GameState) (r : Nat → Rat) (i : Nat) (id : String)
       (e : ScheduleEntry),
      g.eventSchedule.get? id = some e →
      (Game.scheduleNewEvents C g r i).1.eventSchedule.get? id = some e) := by
  constructor
  · intro C prog r g i id ev p hsch hcomp hcond hp hp0 hp1
    have halways : Game.probAlwaysOn ev = false := by
      simp [Game.probAlwaysOn, hp, hp0, not_le.mpr hp1]
    have hnum : jsNum ev.probability = p := by simp [jsNum, hp]
    constructor
    · intro hroll
      unfold Game.scheduleStep
      simp only [hsch, Option.isSome_none, Bool.false_eq_true, if_false, hcomp, hcond,
        Bool.true_eq_false, Bool.not_true, halways, hnum]
      rw [if_pos hroll]
    · intro hroll
      unfold Game.scheduleStep
      simp only [hsch, Option.isSome_none, Bool.false_eq_true, if_false, hcomp, hcond,
        Bool.true_eq_false, Bool.not_true, halways, hnum]
      rw [if_neg hroll]
  · intro C g r i id e hsch
    unfold Game.scheduleNewEvents
    have h := foldlInvariant (Game.scheduleStep C (Game.getWeekProgress g) r)
      (fun s => s.1.eventSchedule.get? id = some e)
      C.events (g, i) hsch
    apply h
    intro s2 a _ hP
    rcases s2 with ⟨g2, i2⟩
    rcases a with ⟨id2, ev2⟩
    simp only [Game.scheduleStep]
    by_cases heq : id2 = id
    · subst heq
      simp [hP]
    · repeat' split
      all_goals simpa [Obj.get?_set_ne _ _ _ _ (Ne.symm heq)] using hP

/-- Witness for C2: a probability-1/2 event with no entry, a failing roll
(draw 1/2 is not greater than 1/2, so in fact this draw passes), and
persistence of an existing `notPassed` entry across a scheduling pass. -/
theorem claim_C2_witness :
    (({} : GameState).eventSchedule.get? "w" = none ∧
     ({} : GameState).completedEvents.contains "w" = false ∧
     (1/2 : Rat) ≠ 0 ∧ (1/2 : Rat) < 1 ∧ ¬(randHalf 0 > (1/2 : Rat)) ∧
     Game.scheduleStep contentPolicies 0 randHalf ({}, 0)
         ("w", { probability := some (1/2) }) =
       ({ ({} : GameState) with eventSchedule := ({} : GameState).eventSchedule.set "w" (.scheduled (randHalf 1) false (randHalf 1 < 0)) }, 2)) ∧
    ((Game.scheduleNewEvents contentPolicies
        { eventSchedule := [("w", .notPassed)] } randHalf 0).1.eventSchedule.get? "w" =
      some .notPassed) := by
  have h2 : ¬(randHalf 0 > (1/2 : Rat)) := by simp [randHalf]
  refine ⟨⟨rfl, rfl, by norm_num, by norm_num, h2, ?_⟩, ?_⟩
  · exact ((claim_C2.1 contentPolicies 0 randHalf {} 0 "w"
      { probability := some (1/2) } (1/2) rfl rfl (by decide) rfl (by norm_num)
      (by norm_num)).2 h2)
  · exact claim_C2.2 contentPolicies { eventSchedule := [("w", .notPassed)] }
      randHalf 0 "w" .notPassed rfl

/-- Counterexample to C2 as stated: an event with probability `0` (which
is strictly less than 1) whose conditions hold and which has no entry is
never rolled — the scheduling pass stores no entry and consumes no draw
(JS falsiness of `0` routes it past the scheduler), and the event is then
treated as always eligible and fires. -/
theorem claim_C2_counterexample :
    (contentProbZero.events.get? "e0").map EventDef.probability = some (some 0) ∧
    ConditionChecker.check contentProbZero stateProbZero none = true ∧
    stateProbZero.eventSchedule.get? "e0" = none ∧
    (Game.scheduleNewEvents contentProbZero stateProbZero randHalf 0).1.eventSchedule.get?
        "e0" = none ∧
    (Game.scheduleNewEvents contentProbZero stateProbZero randHalf 0).2 = 0 ∧
    (Game.selectAndSupersede contentProbZero stateProbZero).2 = some "e0" :=
  ⟨by decide, by decide, by decide, by decide, by decide, by decide⟩

/-- The claim C3: week progress is `used / (weekStartActions + 1)`, zero
at week start, monotone as actions are used; a week-end evaluation point
(one more `used` than the action budget) would have progress exactly 1,
at which every passed, unmissed, unfired entry with `triggerAt ≤ 1` is
allowed to fire; but at every evaluation point the code actually reaches
(`actionsRemaining ≥ 0`) progress stays at most `ws / (ws + 1)`, so an
entry with a larger `triggerAt` is never allowed to fire. -/
theorem claim_C3 :
    (∀ g : GameState, g.actionsRemaining = g.weekStartActions →
      Game.getWeekProgress g = 0) ∧
    (∀ g1 g2 : GameState, g1.weekStartActions = g2.weekStartActions →
      0 ≤ g2.weekStartActions → g2.actionsRemaining ≤ g1.actionsRemaining →
      Game.getWeekProgress g1 ≤ Game.getWeekProgress g2) ∧
    (∀ g : GameState, 0 ≤ g.weekStartActions → g.actionsRemaining = -1 →
      Game.getWeekProgress g = 1 ∧
      (∀ t : Rat, t ≤ 1 →
        Game.scheduleAllows (some (.scheduled t false false)) (Game.getWeekProgress g) =
          true)) ∧
    (∀ (g : GameState) (t : Rat), 0 ≤ g.weekStartActions → 0 ≤ g.actionsRemaining →
      g.weekStartActions / (g.weekStartActions + 1) < t →
      Game.scheduleAllows (some (.scheduled t false false)) (Game.getWeekProgress g) =
        false) := by
  refine ⟨?_, ?_, ?_, ?_⟩
  · intro g h
    simp [Game.getWeekProgress, h]
  · intro g1 g2 hws h0 hrem
    unfold Game.getWeekProgress
    rw [hws]
    have hpos : (0 : Rat) < g2.weekStartActions + 1 := by linarith
    apply div_le_div_of_nonneg_right ?_ hpos.le |>.trans_eq rfl
    linarith
  · intro g h0 hrem
    have hpos : (0 : Rat) < g.weekStartActions + 1 := by linarith
    have hprog : Game.getWeekProgress g = 1 := by
      unfold Game.getWeekProgress
      rw [hrem]
      rw [show g.weekStartActions - (-1) = g.weekStartActions + 1 by ring]
      exact div_self (ne_of_gt hpos)
    refine ⟨hprog, ?_⟩
    intro t ht
    rw [hprog]
    simp [Game.scheduleAllows, not_lt.mpr ht]
  · intro g t h0 hrem hlt
    have hpos : (0 : Rat) < g.weekStartActions + 1 := by linarith
    have hle : Game.getWeekProgress g ≤ g.weekStartActions / (g.weekStartActions + 1) := by
      unfold Game.getWeekProgress
      apply div_le_div_of_nonneg_right ?_ hpos.le |>.trans_eq rfl
      linarith
    have hgt : Game.getWeekProgress g < t := lt_of_le_of_lt hle hlt
    simp [Game.scheduleAllows, hgt]

/-- Witness for C3 at `weekStartActions = 3`: progress 0 at week start,
monotone between two points, progress 1 at the hypothetical week-end
point where a `triggerAt = 9/10` entry is allowed, and that same entry is
not allowed at the last reachable point (`actionsRemaining = 0`,
progress 3/4). -/
theorem claim_C3_witness :
    (({} : GameState).actionsRemaining = ({} : GameState).weekStartActions ∧
     Game.getWeekProgress {} = 0) ∧
    (Game.getWeekProgress { actionsRemaining := 2 } ≤
      Game.getWeekProgress { actionsRemaining := 1 }) ∧
    (((0 : Rat) ≤ 3 ∧ ({ actionsRemaining := -1 } : GameState).actionsRemaining = -1) ∧
     Game.getWeekProgress ({ actionsRemaining := -1 } : GameState) = 1 ∧
     Game.scheduleAllows (some (.scheduled (9/10) false false))
       (Game.getWeekProgress ({ actionsRemaining := -1 } : GameState)) = true) ∧
    ((3 : Rat) / (3 + 1) < 9/10 ∧
     Game.scheduleAllows (some (.scheduled (9/10) false false))
       (Game.getWeekProgress ({ actionsRemaining := 0 } : GameState)) = false) := by
  refine ⟨⟨rfl, claim_C3.1 {} rfl⟩, ?_, ⟨⟨by norm_num, rfl⟩, ?_, ?_⟩, ⟨by norm_num, ?_⟩⟩
  · exact claim_C3.2.1 { actionsRemaining := 2 } { actionsRemaining := 1 } rfl
      (by norm_num) (by norm_num)
  · exact (claim_C3.2.2.1 ({ actionsRemaining := -1 } : GameState) (by norm_num) rfl).1
  · exact (claim_C3.2.2.1 ({ actionsRemaining := -1 } : GameState) (by norm_num) rfl).2
      (9/10) (by norm_num)
  · exact claim_C3.2.2.2 ({ actionsRemaining := 0 } : GameState) (9/10) (by norm_num)
      (by norm_num) (by norm_num)

/-- The claim C4 amended so that "crushMargin given" means a positive
crush margin (JS truthiness treats a zero margin as absent, and the
source's crushing-success-first precedence differs from the claim's
crushing-failure-first reading on negative margins): without a margin, or
with a positive one, the source's outcome cascade coincides with the
claim's tier characterization; and the two scenario checks resolve as the
claim states. -/
theorem claim_C4 :
    (∀ d t : Rat,
      AbilityChecker.outcomeOf none t d = AbilityChecker.claimOutcomeTiers none t d) ∧
    (∀ c d t : Rat, 0 < c →
      AbilityChecker.outcomeOf (some c) t d =
        AbilityChecker.claimOutcomeTiers (some c) t d) ∧
    (AbilityChecker.check contentChecks stateSkill30 specPlain false randHalf 0).1 =
      { outcome := .failure, playerRoll := 38, effectiveDifficulty := 40, roll := 8,
        skillValue := 30, margin := -2 } ∧
    (AbilityChecker.check contentChecks stateSkill50 specCrush false randSix 0).1 =
      { outcome := .crushingSuccess, playerRoll := 62, effectiveDifficulty := 40,
        roll := 12, skillValue := 50, margin := 22 } := by
  refine ⟨?_, ?_, ?_, ?_⟩
  · intro d t
    simp only [AbilityChecker.outcomeOf, AbilityChecker.claimOutcomeTiers, jsTruthyN,
      jsNum, Option.getD]
    norm_num
    split_ifs <;> first | rfl | linarith
  · intro c d t hc
    have ht : jsTruthyN (some c) = true := by
      simp [jsTruthyN, ne_of_gt hc]
    simp only [AbilityChecker.outcomeOf, AbilityChecker.claimOutcomeTiers, ht, jsNum,
      Option.getD, true_and]
    norm_num
    split_ifs <;> first | rfl | linarith
  · have hd : AbilityChecker.parseDice "2d6" = (2, 6) := by decide
    have hf : ⌊(1/2 : Rat) * 6⌋ = 3 := by rw [Int.floor_eq_iff] <;> norm_num
    rw [AbilityChecker.check]
    simp +decide only [AbilityChecker.validateCheck, AbilityChecker.rollDice, hd,
      AbilityChecker.rollDiceLoop, AbilityChecker.outcomeOf, jsTruthyS, jsTruthyN, jsNum,
      specPlain, contentChecks, stateSkill30, randHalf, Game.getSkill, Game.getStat,
      Game.getCharacter, Game.hasDeepSkill, Obj.get?, List.foldl]
    norm_num [hd, hf, Obj.get?]
  · have hd : AbilityChecker.parseDice "2d6" = (2, 6) := by decide
    have hf : ⌊(5/6 : Rat) * 6⌋ = 5 := by rw [Int.floor_eq_iff] <;> norm_num
    rw [AbilityChecker.check]
    simp +decide only [AbilityChecker.validateCheck, AbilityChecker.rollDice, hd,
      AbilityChecker.rollDiceLoop, AbilityChecker.outcomeOf, jsTruthyS, jsTruthyN, jsNum,
      specCrush, contentChecks, stateSkill50, randSix, Game.getSkill, Game.getStat,
      Game.getCharacter, Game.hasDeepSkill, Obj.get?, List.foldl]
    norm_num [hd, hf, Obj.get?]

/-- Witness for C4: the positive-margin characterization instantiated at
the second scenario's numbers. -/
theorem claim_C4_witness :
    (0 : Rat) < 15 ∧
    AbilityChecker.outcomeOf none 38 40 = AbilityChecker.claimOutcomeTiers none 38 40 ∧
    AbilityChecker.outcomeOf (some 15) 62 40 =
      AbilityChecker.claimOutcomeTiers (some 15) 62 40 :=
  ⟨by norm_num, claim_C4.1 40 38, claim_C4.2.1 15 40 62 (by norm_num)⟩

/-- Counterexample to C4 as stated: with a given crushMargin of `0` and
total 38 against difficulty 40 the claim's tiers give crushing failure
but the code gives plain failure; with a given crushMargin of `-10` and
total 45 against difficulty 40 the claim's tiers give crushing failure
but the code gives crushing success. -/
theorem claim_C4_counterexample :
    AbilityChecker.outcomeOf (some 0) 38 40 = .failure ∧
    AbilityChecker.claimOutcomeTiers (some 0) 38 40 = .crushingFailure ∧
    AbilityChecker.outcomeOf (some (-10)) 45 40 = .crushingSuccess ∧
    AbilityChecker.claimOutcomeTiers (some (-10)) 45 40 = .crushingFailure ∧
    AbilityChecker.Outcome.failure ≠ AbilityChecker.Outcome.crushingFailure ∧
    AbilityChecker.Outcome.crushingSuccess ≠ AbilityChecker.Outcome.crushingFailure := by
  refine ⟨?_, ?_, ?_, ?_, by decide, by decide⟩ <;>
    norm_num [AbilityChecker.outcomeOf, AbilityChecker.claimOutcomeTiers, jsTruthyN, jsNum]

/-- The claim C9: with crushMargin and effective difficulty fixed, the
outcome tier is monotone in the player total; in particular a success
never degrades to a failure as the total grows. -/
theorem claim_C9 (cm : Option Rat) (d t1 t2 : Rat) (h : t1 ≤ t2) :
    (AbilityChecker.outcomeOf cm t1 d).rank ≤ (AbilityChecker.outcomeOf cm t2 d).rank ∧
    (AbilityChecker.outcomeOf cm t1 d = .success →
      AbilityChecker.outcomeOf cm t2 d ≠ .failure) := by
  have hmono : (AbilityChecker.outcomeOf cm t1 d).rank ≤
      (AbilityChecker.outcomeOf cm t2 d).rank := by
    rcases cm with _ | c
    · simp only [AbilityChecker.outcomeOf, jsTruthyN, jsNum, Option.getD]
      norm_num
      split_ifs <;> simp [AbilityChecker.Outcome.rank] <;> linarith
    · by_cases hc : c = 0
      · subst hc
        simp only [AbilityChecker.outcomeOf, jsTruthyN, jsNum, Option.getD]
        norm_num
        split_ifs <;> simp [AbilityChecker.Outcome.rank] <;> linarith
      · have ht : jsTruthyN (some c) = true := by simp [jsTruthyN, hc]
        simp only [AbilityChecker.outcomeOf, ht, jsNum, Option.getD, true_and]
        norm_num
        split_ifs <;> simp [AbilityChecker.Outcome.rank] <;> linarith
  refine ⟨hmono, ?_⟩
  intro hs hf
  rw [hs, hf] at hmono
  simp [AbilityChecker.Outcome.rank] at hmono

/-- Witness for C9 at crushMargin 15, difficulty 40, totals 38 and 62. -/
theorem claim_C9_witness :
    (38 : Rat) ≤ 62 ∧
    ((AbilityChecker.outcomeOf (some 15) 38 40).rank ≤
      (AbilityChecker.outcomeOf (some 15) 62 40).rank ∧
     (AbilityChecker.outcomeOf (some 15) 38 40 = .success →
       AbilityChecker.outcomeOf (some 15) 62 40 ≠ .failure)) :=
  ⟨by norm_num, claim_C9 (some 15) 40 38 62 (by norm_num)⟩

/-- The claim C10: when the dice-expression regex finds no match in the
string, `parseDice` silently falls back to one d20, `rollDice` rolls a
single d20, and a check spec whose dice field is present (nonempty) but
malformed passes validation rather than being reported invalid. -/
theorem claim_C10 :
    (∀ s : String, AbilityChecker.diceSearch s.data = none →
      AbilityChecker.parseDice s = (1, 20)) ∧
    (∀ (s : String) (r : Nat → Rat) (i : Nat), AbilityChecker.diceSearch s.data = none →
      AbilityChecker.rollDice s r i = (⌊r i * 20⌋ + 1, i + 1)) ∧
    (∀ spec : AbilityChecker.CheckSpec, jsTruthyS spec.skill = true →
      jsTruthyS spec.dice = true → spec.difficulty.isSome = true →
      AbilityChecker.validateCheck spec = []) := by
  refine ⟨?_, ?_, ?_⟩
  · intro s h
    simp [AbilityChecker.parseDice, h]
  · intro s r i h
    simp [AbilityChecker.rollDice, AbilityChecker.parseDice, h,
      AbilityChecker.rollDiceLoop]
  · intro spec h1 h2 h3
    cases hd : spec.difficulty with
    | none => rw [hd] at h3; simp at h3
    | some dv => simp [AbilityChecker.validateCheck, h1, h2, hd]

/-- Witness for C10 at the malformed dice string `"garbage"` inside an
otherwise complete check spec. -/
theorem claim_C10_witness :
    AbilityChecker.diceSearch "garbage".data = none ∧
    AbilityChecker.parseDice "garbage" = (1, 20) ∧
    AbilityChecker.rollDice "garbage" randHalf 0 = (⌊randHalf 0 * 20⌋ + 1, 1) ∧
    AbilityChecker.validateCheck
      { skill := some "x", dice := some "garbage", difficulty := some 10 } = [] :=
  ⟨by decide, claim_C10.1 "garbage" (by decide),
   claim_C10.2.1 "garbage" randHalf 0 (by decide),
   claim_C10.2.2 { skill := some "x", dice := some "garbage", difficulty := some 10 }
     (by decide) (by decide) rfl⟩

/-- The claim C6: 50 free hours and 20 hours per action; at or below the
free budget the full 3 base actions are guaranteed with no bonus chance;
62 total hours give 2 guaranteed actions and a 2/5 bonus chance; and the
week-start fragment grants `guaranteed` actions plus one extra exactly
when the bonus chance is positive and a single draw lands below it (the
draw being consumed only in that case). -/
theorem claim_C6 :
    (PursuitManager.FREE_HOURS = 50 ∧ PursuitManager.HOURS_PER_ACTION = 20) ∧
    (∀ (C : Content) (g : GameState), PursuitManager.calculatePursuitHours C g ≤ 50 →
      PursuitManager.calculateEffectiveActions C g = ⟨3, 0⟩) ∧
    (PursuitManager.calculatePursuitHours contentHours stateHours = 62 ∧
     PursuitManager.calculateEffectiveActions contentHours stateHours = ⟨2, 2/5⟩) ∧
    (∀ (C : Content) (g : GameState) (r : Nat → Rat) (i : Nat),
      (Game.startWeekActions C g r i).1.actionsRemaining =
        ((PursuitManager.calculateEffectiveActions C g).guaranteed : Rat) +
          (if (PursuitManager.calculateEffectiveActions C g).bonusChance > 0 ∧
              r i < (PursuitManager.calculateEffectiveActions C g).bonusChance
           then 1 else 0) ∧
      (Game.startWeekActions C g r i).2 =
        (if (PursuitManager.calculateEffectiveActions C g).bonusChance > 0 then i + 1
         else i)) := by
  have hhours : PursuitManager.calculatePursuitHours contentHours stateHours = 62 := by
    simp +decide only [PursuitManager.calculatePursuitHours,
      PursuitManager.pursuitHoursTotal, PursuitManager.getPursuitHoursCost, contentHours,
      stateHours, jsNum, Obj.get?, List.foldl]
    norm_num
  refine ⟨⟨rfl, rfl⟩, ?_, ⟨hhours, ?_⟩, ?_⟩
  · intro C g hle
    unfold PursuitManager.calculateEffectiveActions
    simp only [Config.actionsPerPeriod]
    have h1 : (0 : Rat) ⊔
        (PursuitManager.calculatePursuitHours C g - PursuitManager.FREE_HOURS) = 0 := by
      apply sup_eq_left.mpr
      rw [PursuitManager.FREE_HOURS]
      linarith
    have h2 : (0 : Rat) ⊔ ((3 : Rat) - 0 / PursuitManager.HOURS_PER_ACTION) = 3 := by
      rw [PursuitManager.HOURS_PER_ACTION]
      rw [sup_eq_right.mpr] <;> norm_num
    have h3 : ⌊(3 : Rat)⌋ = 3 := by
      rw [Int.floor_eq_iff] <;> norm_num
    simp only [h1, h2, h3]
    norm_num
  · rw [PursuitManager.calculateEffectiveActions, hhours]
    simp only [Config.actionsPerPeriod]
    rw [show ((0 : Rat) ⊔ ((62 : Rat) - PursuitManager.FREE_HOURS)) = 12 by
      rw [PursuitManager.FREE_HOURS]; rw [sup_eq_right.mpr] <;> norm_num]
    rw [show ((0 : Rat) ⊔ ((3 : Rat) - 12 / PursuitManager.HOURS_PER_ACTION)) = 12/5 by
      rw [PursuitManager.HOURS_PER_ACTION]; rw [sup_eq_right.mpr] <;> norm_num]
    rw [show ⌊(12/5 : Rat)⌋ = 2 by rw [Int.floor_eq_iff] <;> norm_num]
    norm_num
  · intro C g r i
    unfold Game.startWeekActions
    by_cases hb : (PursuitManager.calculateEffectiveActions C g).bonusChance > 0
    · by_cases hr : r i < (PursuitManager.calculateEffectiveActions C g).bonusChance
      · simp [hb, hr]
      · simp [hb, hr]
    · simp [hb]

/-- Witness for C6: the empty pursuit set is within the free budget and
gives the full 3 actions with no bonus draw. -/
theorem claim_C6_witness :
    PursuitManager.calculatePursuitHours {} {} ≤ 50 ∧
    PursuitManager.calculateEffectiveActions {} {} = ⟨3, 0⟩ ∧
    ((Game.startWeekActions {} {} randHalf 0).1.actionsRemaining =
        ((PursuitManager.calculateEffectiveActions {} {}).guaranteed : Rat) +
          (if (PursuitManager.calculateEffectiveActions {} {}).bonusChance > 0 ∧
              randHalf 0 < (PursuitManager.calculateEffectiveActions {} {}).bonusChance
           then 1 else 0) ∧
     (Game.startWeekActions {} {} randHalf 0).2 =
        (if (PursuitManager.calculateEffectiveActions {} {}).bonusChance > 0 then 0 + 1
         else 0)) :=
  ⟨by norm_num [PursuitManager.calculatePursuitHours, PursuitManager.pursuitHoursTotal,
      List.foldl],
   claim_C6.2.1 {} {} (by norm_num [PursuitManager.calculatePursuitHours,
      PursuitManager.pursuitHoursTotal, List.foldl]),
   claim_C6.2.2.2 {} {} randHalf 0⟩

/-- The claim C7: loading an old save whose state lacks the pursuits
collection. `Game.load` installs the parsed state verbatim (no
defaulting), and the pursuit-hours calculation over the absent collection
throws a TypeError instead of treating it as empty and returning 0 (which
is what the same calculation returns on a present-but-empty collection). -/
theorem claim_C7 :
    (Game.load oldSave).week = 5 ∧
    (Game.load oldSave).pursuits = none ∧
    PursuitManager.calculatePursuitHoursE {} (Game.load oldSave).pursuits =
      .error "TypeError: cannot convert undefined to object in Object.entries(game.state.pursuits)" ∧
    PursuitManager.calculatePursuitHoursE {} (some []) = .ok 0 :=
  ⟨rfl, rfl, rfl, rfl⟩

theorem insertPrioDesc_perm (x : String × EventDef) (l : List (String × EventDef)) :
    (Game.insertPrioDesc x l).Perm (x :: l) := by
  induction l with
  | nil => simp [Game.insertPrioDesc]
  | cons y ys ih =>
    unfold Game.insertPrioDesc
    by_cases hp : Game.evPriority x.2 ≥ Game.evPriority y.2
    · rw [if_pos hp]
    · rw [if_neg hp]
      exact (ih.cons y).trans (List.Perm.swap x y ys)

theorem sortPrioDesc_perm (l : List (String × EventDef)) :
    (Game.sortPrioDesc l).Perm l := by
  induction l with
  | nil => simp [Game.sortPrioDesc]
  | cons x xs ih =>
    unfold Game.sortPrioDesc
    exact (insertPrioDesc_perm x (Game.sortPrioDesc xs)).trans (ih.cons x)

theorem sortPrioDesc_head_spec :
    ∀ (l : List (String × EventDef)) (w : String × EventDef)
      (rest : List (String × EventDef)),
      Game.sortPrioDesc l = w :: rest →
      ∃ pre post, l = pre ++ w :: post ∧
        (∀ p ∈ pre, Game.evPriority p.2 < Game.evPriority w.2) ∧
        (∀ p ∈ l, Game.evPriority p.2 ≤ Game.evPriority w.2) := by
  intro l
  induction l with
  | nil => intro w rest h; simp [Game.sortPrioDesc] at h
  | cons x xs ih =>
    intro w rest h
    unfold Game.sortPrioDesc at h
    cases hs : Game.sortPrioDesc xs with
    | nil =>
      have hxs : xs = [] := by
        have hlen := (sortPrioDesc_perm xs).length_eq
        rw [hs] at hlen
        exact List.length_eq_zero.mp hlen.symm
      subst hxs
      rw [hs] at h
      unfold Game.insertPrioDesc at h
      injection h with hw hrest
      subst hw
      exact ⟨[], [], by simp, by simp, by simp⟩
    | cons h1 t1 =>
      rw [hs] at h
      unfold Game.insertPrioDesc at h
      by_cases hp : Game.evPriority x.2 ≥ Game.evPriority h1.2
      · rw [if_pos hp] at h
        injection h with hw hrest
        subst hw
        obtain ⟨pre1, post1, hxs, hpre1, hmax1⟩ := ih h1 t1 hs
        refine ⟨[], xs, by simp, by simp, ?_⟩
        intro p hp2
        rcases List.mem_cons.mp hp2 with h2 | h2
        · rw [h2]
        · exact le_trans (hmax1 p h2) hp
      · rw [if_neg hp] at h
        injection h with hw hrest
        subst hw
        obtain ⟨pre1, post1, hxs, hpre1, hmax1⟩ := ih h1 t1 hs
        refine ⟨x :: pre1, post1, by rw [hxs]; rfl, ?_, ?_⟩
        · intro p hp2
          rcases List.mem_cons.mp hp2 with h2 | h2
          · rw [h2]; exact lt_of_not_ge hp
          · exact hpre1 p h2
        · intro p hp2
          rcases List.mem_cons.mp hp2 with h2 | h2
          · rw [h2]; exact le_of_lt (lt_of_not_ge hp)
          · exact hmax1 p h2

theorem supersedeFold_eventSchedule (l : List (String × EventDef)) (acc : GameState) :
    (Game.supersedeFold l acc).eventSchedule = acc.eventSchedule := by
  induction l generalizing acc with
  | nil => rfl
  | cons p ps ih =>
    unfold Game.supersedeFold at ih ⊢
    simp only [List.foldl_cons]
    by_cases hp : (p.2.onSuperseded == some "remove") = true
    · rw [if_pos hp]; exact ih _
    · rw [if_neg hp]; exact ih _

theorem supersedeFold_completed_mono (l : List (String × EventDef)) (acc : GameState)
    (id : String) (h : id ∈ acc.completedEvents) :
    id ∈ (Game.supersedeFold l acc).completedEvents := by
  induction l generalizing acc with
  | nil => exact h
  | cons p ps ih =>
    unfold Game.supersedeFold at ih ⊢
    simp only [List.foldl_cons]
    by_cases hp : (p.2.onSuperseded == some "remove") = true
    · rw [if_pos hp]
      exact ih _ (by simp [h])
    · rw [if_neg hp]
      exact ih _ h

theorem supersedeFold_mem_remove (l : List (String × EventDef)) (acc : GameState)
    (p : String × EventDef) (hp : p ∈ l) (hr : p.2.onSuperseded = some "remove") :
    p.1 ∈ (Game.supersedeFold l acc).completedEvents := by
  induction l generalizing acc with
  | nil => simp at hp
  | cons q qs ih =>
    unfold Game.supersedeFold at ih ⊢
    simp only [List.foldl_cons]
    rcases List.mem_cons.mp hp with h1 | h1
    · subst h1
      rw [if_pos (by simp [hr])]
      have : p.1 ∈ (acc.completedEvents ++ [p.1]) := by simp
      exact supersedeFold_completed_mono qs _ p.1 (by simpa using this)
    · by_cases hq : (q.2.onSuperseded == some "remove") = true
      · rw [if_pos hq]; exact ih _ h1
      · rw [if_neg hq]; exact ih _ h1

theorem supersedeFold_completed_sub (l : List (String × EventDef)) (acc : GameState)
    (id : String) (h : id ∈ (Game.supersedeFold l acc).completedEvents) :
    id ∈ acc.completedEvents ∨ ∃ ev, (id, ev) ∈ l ∧ ev.onSuperseded = some "remove" := by
  induction l generalizing acc with
  | nil => exact Or.inl h
  | cons q qs ih =>
    unfold Game.supersedeFold at ih h
    simp only [List.foldl_cons] at h
    by_cases hq : (q.2.onSuperseded == some "remove") = true
    · rw [if_pos hq] at h
      rcases ih _ h with h1 | ⟨ev, hev, hrm⟩
      · simp only [List.mem_append, List.mem_singleton] at h1
        rcases h1 with h2 | h2
        · exact Or.inl h2
        · subst h2
          exact Or.inr ⟨q.2, by simp, by simpa using hq⟩
      · exact Or.inr ⟨ev, List.mem_cons_of_mem q hev, hrm⟩
    · rw [if_neg hq] at h
      rcases ih _ h with h1 | ⟨ev, hev, hrm⟩
      · exact Or.inl h1
      · exact Or.inr ⟨ev, List.mem_cons_of_mem q hev, hrm⟩

theorem assoc_nodup_eq {α : Type} (l : List (String × α)) (hnd : (l.map Prod.fst).Nodup)
    (k : String) (a b : α) (ha : (k, a) ∈ l) (hb : (k, b) ∈ l) : a = b := by
  induction l with
  | nil => simp at ha
  | cons p ps ih =>
    simp only [List.map_cons, List.nodup_cons] at hnd
    rcases List.mem_cons.mp ha with h1 | h1 <;> rcases List.mem_cons.mp hb with h2 | h2
    · rw [← h1] at h2
      simpa using (congrArg Prod.snd h2).symm
    · exfalso
      apply hnd.1
      rw [← h1]
      simpa using List.mem_map_of_mem Prod.fst h2
    · exfalso
      apply hnd.1
      rw [← h2]
      simpa using List.mem_map_of_mem Prod.fst h1
    · exact ih hnd.2 h1 h2

/-- The claim C5 amended to the source's supersede literals (`'remove'`
for the spec's retire, `'reschedule'` for requeue): when any events are
eligible, exactly one fires — the first eligible event of maximal
priority in discovery order — and each other eligible event is either
pushed into the permanently-retired set (policy `'remove'`) or left
untouched (policy `'reschedule'`); no schedule entry other than the
winner's is modified. -/
theorem claim_C5 (C : Content) (g : GameState)
    (hne : (Game.eligibleEvents C g).length ≠ 0)
    (hnd : (C.events.map Prod.fst).Nodup) :
    ∃ (wid : String) (wev : EventDef) (pre post : List (String × EventDef)),
      (Game.selectAndSupersede C g).2 = some wid ∧
      Game.eligibleEvents C g = pre ++ (wid, wev) :: post ∧
      (∀ p ∈ pre, Game.evPriority p.2 < Game.evPriority wev) ∧
      (∀ p ∈ Game.eligibleEvents C g, Game.evPriority p.2 ≤ Game.evPriority wev) ∧
      (∀ p ∈ Game.eligibleEvents C g, p.1 ≠ wid →
        (p.2.onSuperseded = some "remove" →
          p.1 ∈ (Game.selectAndSupersede C g).1.completedEvents) ∧
        (p.2.onSuperseded = some "reschedule" →
          (p.1 ∈ (Game.selectAndSupersede C g).1.completedEvents ↔
            p.1 ∈ g.completedEvents))) ∧
      (∀ id2, id2 ≠ wid →
        (Game.selectAndSupersede C g).1.eventSchedule.get? id2 =
          g.eventSchedule.get? id2) := by
  obtain ⟨w, rest, hsort⟩ : ∃ w rest,
      Game.sortPrioDesc (Game.eligibleEvents C g) = w :: rest := by
    cases hs : Game.sortPrioDesc (Game.eligibleEvents C g) with
    | nil =>
      exfalso
      apply hne
      have hlen := (sortPrioDesc_perm (Game.eligibleEvents C g)).length_eq
      rw [hs] at hlen
      exact hlen.symm
    | cons w rest => exact ⟨w, rest, rfl⟩
  obtain ⟨pre, post, hdecomp, hpre, hmax⟩ :=
    sortPrioDesc_head_spec (Game.eligibleEvents C g) w rest hsort
  have helnd : ((Game.eligibleEvents C g).map Prod.fst).Nodup :=
    hnd.sublist ((List.filter_sublist C.events).map Prod.fst)
  have hrest_mem : ∀ p ∈ rest, p ∈ Game.eligibleEvents C g := by
    intro p hp
    exact (sortPrioDesc_perm (Game.eligibleEvents C g)).mem_iff.mp
      (by rw [hsort]; exact List.mem_cons_of_mem w hp)
  have hmem_rest : ∀ p ∈ Game.eligibleEvents C g, p ≠ w → p ∈ rest := by
    intro p hp hne2
    have : p ∈ Game.sortPrioDesc (Game.eligibleEvents C g) :=
      (sortPrioDesc_perm (Game.eligibleEvents C g)).mem_iff.mpr hp
    rw [hsort] at this
    rcases List.mem_cons.mp this with h1 | h1
    · exact absurd h1 hne2
    · exact h1
  have hw_mem : w ∈ Game.eligibleEvents C g := by
    rw [hdecomp]
    simp
  unfold Game.selectAndSupersede
  rw [hsort]
  set g1 : GameState := (match g.eventSchedule.get? w.1 with
    | some e => { g with eventSchedule := g.eventSchedule.set w.1 (Game.markTriggered e) }
    | none => g) with hg1
  have hg1completed : g1.completedEvents = g.completedEvents := by
    rw [hg1]
    cases g.eventSchedule.get? w.1 <;> rfl
  have hg1sched : ∀ id2, id2 ≠ w.1 →
      g1.eventSchedule.get? id2 = g.eventSchedule.get? id2 := by
    intro id2 hid
    rw [hg1]
    cases g.eventSchedule.get? w.1 with
    | none => rfl
    | some e => simp [Obj.get?_set_ne _ _ _ _ hid]
  refine ⟨w.1, w.2, pre, post, rfl, by simpa using hdecomp, hpre, by simpa using hmax, ?_, ?_⟩
  · intro p hp hpid
    have hprest : p ∈ rest := by
      apply hmem_rest p hp
      intro hcontra
      exact hpid (by rw [hcontra])
    constructor
    · intro hrm
      simpa using supersedeFold_mem_remove rest g1 p hprest hrm
    · intro hrq
      constructor
      · intro hmem
        have hsub := supersedeFold_completed_sub rest g1 p.1 (by simpa using hmem)
        rcases hsub with h1 | ⟨ev, hev, hrm⟩
        · rw [hg1completed] at h1; exact h1
        · exfalso
          have hev_el : (p.1, ev) ∈ Game.eligibleEvents C g := hrest_mem _ hev
          have hp_el : (p.1, p.2) ∈ Game.eligibleEvents C g := by simpa using hp
          have : ev = p.2 := assoc_nodup_eq _ helnd p.1 ev p.2 hev_el hp_el
          rw [this, hrq] at hrm
          simp at hrm
      · intro hmem
        apply supersedeFold_completed_mono
        rw [hg1completed]
        exact hmem
  · intro id2 hid
    have := supersedeFold_eventSchedule rest g1
    calc (Game.supersedeFold rest g1).eventSchedule.get? id2
        = g1.eventSchedule.get? id2 := by rw [this]
      _ = g.eventSchedule.get? id2 := hg1sched id2 hid

/-- Witness for C5 at three always-eligible events: the priority-9 event
wins, the `'remove'` loser is retired, the `'reschedule'` loser is left
untouched. -/
theorem claim_C5_witness :
    (Game.eligibleEvents contentPolicies statePolicies).length ≠ 0 ∧
    (contentPolicies.events.map Prod.fst).Nodup ∧
    (∃ (wid : String) (wev : EventDef) (pre post : List (String × EventDef)),
      (Game.selectAndSupersede contentPolicies statePolicies).2 = some wid ∧
      Game.eligibleEvents contentPolicies statePolicies = pre ++ (wid, wev) :: post ∧
      (∀ p ∈ pre, Game.evPriority p.2 < Game.evPriority wev) ∧
      (∀ p ∈ Game.eligibleEvents contentPolicies statePolicies,
        Game.evPriority p.2 ≤ Game.evPriority wev) ∧
      (∀ p ∈ Game.eligibleEvents contentPolicies statePolicies, p.1 ≠ wid →
        (p.2.onSuperseded = some "remove" →
          p.1 ∈ (Game.selectAndSupersede contentPolicies statePolicies).1.completedEvents) ∧
        (p.2.onSuperseded = some "reschedule" →
          (p.1 ∈ (Game.selectAndSupersede contentPolicies statePolicies).1.completedEvents ↔
            p.1 ∈ statePolicies.completedEvents))) ∧
      (∀ id2, id2 ≠ wid →
        (Game.selectAndSupersede contentPolicies statePolicies).1.eventSchedule.get? id2 =
          statePolicies.eventSchedule.get? id2)) :=
  ⟨by decide, by decide, claim_C5 contentPolicies statePolicies (by decide) (by decide)⟩

/-- Counterexample to C5 as stated: the spec's policy literal `retire` is
not recognised by the source (which tests for `'remove'`), so a
superseded event declaring `onSuperseded: 'retire'` is NOT moved into the
completed-event set. -/
theorem claim_C5_counterexample :
    (Game.eligibleEvents contentSupersede stateSupersede).map Prod.fst = ["e1", "e2"] ∧
    (contentSupersede.events.get? "e2").map EventDef.onSuperseded =
      some (some "retire") ∧
    (Game.selectAndSupersede contentSupersede stateSupersede).2 = some "e1" ∧
    (Game.selectAndSupersede contentSupersede stateSupersede).1.completedEvents = [] :=
  ⟨by decide, by decide, by decide, by decide⟩

end TLJ
